import Mathlib

/-!
# Verification of the CS-2400 CPU-simulator core

A shallow embedding, in Lean 4, of the core of the teaching-grade CPU simulator
(`phase3.py`, `Phase5/phase5.py`): the 32-bit instruction codec, the sequential
fetch/decode/execute interpreter, the three-slot pipelined engine with hazard
detection, and the shared memory controller with its write-through cache.

Python integers are unbounded, so machine words are modelled as `Nat` (all stored
words are masked to 32 bits by the code) and register/stack values as `Int`
(Python subtraction can go negative before masking).  Python's `x & 0xFFFFFFFF`
on an `int` equals `x mod 2^32` (`Int.emod`), `x // d` and `x >> k` for a
positive divisor are floor division (Lean's `Int` `/`), and `x % d` for positive
`d` is `Int.emod`; these translations are used throughout.
-/

namespace CPUSim

/-! ## Instruction codec

`make_instruction` appears verbatim in `phase3.py` (module level), in
`Phase5/phase5.py` (module level) and as `Phase3Simulator.make_instruction`:
`(opcode << 28) | (rd << 24) | (rs << 20) | (rt << 16) | (address_or_operand & 0xFFFF)`.
-/

def make_instruction (opcode : Nat) (rd : Nat := 0) (rs : Nat := 0) (rt : Nat := 0)
    (address_or_operand : Nat := 0) : Nat :=
  (opcode <<< 28) ||| (rd <<< 24) ||| (rs <<< 20) ||| (rt <<< 16) |||
    (address_or_operand &&& 0xFFFF)

/-- Opcode field, bits 31-28: `(instr >> 28) & 0b1111` (`decode_execute`,
`execute_instruction`, `has_data_hazard`, `format_instruction`). -/
def opcode_of (instr : Nat) : Nat := (instr >>> 28) &&& 0b1111

/-- Destination-register field, bits 27-24: `(instr >> 24) & 0b1111`. -/
def rd_of (instr : Nat) : Nat := (instr >>> 24) &&& 0b1111

/-- First source-register field, bits 23-20: `(instr >> 20) & 0b1111`. -/
def rs_of (instr : Nat) : Nat := (instr >>> 20) &&& 0b1111

/-- Second source-register field, bits 19-16: `(instr >> 16) & 0b1111`. -/
def rt_of (instr : Nat) : Nat := (instr >>> 16) &&& 0b1111

/-- Immediate field, bits 15-0: `instr & 0xFFFF`. -/
def imm_of (instr : Nat) : Nat := instr &&& 0xFFFF

/-- Bitwise-or of a left-shifted value with a value that fits below the shift
amount is plain addition. -/
theorem shiftLeft_lor_eq_add (a : Nat) {i b : Nat} (hb : b < 2 ^ i) :
    (a <<< i) ||| b = a <<< i + b := by
  have hmul : a <<< i = 2 ^ i * a := by rw [Nat.shiftLeft_eq, Nat.mul_comm]
  rw [hmul]
  apply Nat.eq_of_testBit_eq
  intro j
  rw [Nat.testBit_or, Nat.testBit_mul_pow_two_add a hb j]
  by_cases h : j < i
  · have hleft : Nat.testBit (2 ^ i * a) j = false := by
      rw [← hmul]
      simp only [Nat.testBit_shiftLeft]
      simp [Nat.not_le.mpr h]
    simp [hleft, h]
  · have hright : Nat.testBit b j = false := by
      apply Nat.testBit_lt_two_pow
      exact lt_of_lt_of_le hb (Nat.pow_le_pow_right (by norm_num) (Nat.not_lt.mp h))
    rw [← hmul]
    simp only [Nat.testBit_shiftLeft]
    simp [hright, Nat.not_lt.mp h, h]

/-- Under the field bounds, the or-composition in `make_instruction` is the
positional sum of the fields. -/
theorem make_instruction_eq (op rd rs rt imm : Nat)
    (hop : op < 16) (hrd : rd < 16) (hrs : rs < 16) (hrt : rt < 16) :
    make_instruction op rd rs rt imm =
      op * 2 ^ 28 + rd * 2 ^ 24 + rs * 2 ^ 20 + rt * 2 ^ 16 + imm % 2 ^ 16 := by
  unfold make_instruction
  have hmask : imm &&& 0xFFFF = imm % 2 ^ 16 := by
    have h : (0xFFFF : Nat) = 2 ^ 16 - 1 := by norm_num
    rw [h, Nat.and_pow_two_sub_one_eq_mod]
  rw [hmask, Nat.or_assoc, Nat.or_assoc, Nat.or_assoc]
  have h0 : imm % 2 ^ 16 < 2 ^ 16 := Nat.mod_lt _ (by norm_num)
  rw [shiftLeft_lor_eq_add rt h0]
  have h1 : rt <<< 16 + imm % 2 ^ 16 < 2 ^ 20 := by
    rw [Nat.shiftLeft_eq]; omega
  rw [shiftLeft_lor_eq_add rs h1]
  have h2 : rs <<< 20 + (rt <<< 16 + imm % 2 ^ 16) < 2 ^ 24 := by
    rw [Nat.shiftLeft_eq, Nat.shiftLeft_eq]; omega
  rw [shiftLeft_lor_eq_add rd h2]
  have h3 : rd <<< 24 + (rs <<< 20 + (rt <<< 16 + imm % 2 ^ 16)) < 2 ^ 28 := by
    rw [Nat.shiftLeft_eq, Nat.shiftLeft_eq, Nat.shiftLeft_eq]; omega
  rw [shiftLeft_lor_eq_add op h3]
  rw [Nat.shiftLeft_eq, Nat.shiftLeft_eq, Nat.shiftLeft_eq, Nat.shiftLeft_eq]
  omega

/-- C6: for `op < 16`, `rd, rs, rt < 16` and any immediate, the shift-and-mask
field extraction applied to `make_instruction(op, rd, rs, rt, imm)` returns
exactly `(op, rd, rs, rt, imm & 0xFFFF)`. -/
theorem decode_make_instruction (op rd rs rt imm : Nat)
    (hop : op < 16) (hrd : rd < 16) (hrs : rs < 16) (hrt : rt < 16) :
    opcode_of (make_instruction op rd rs rt imm) = op ∧
    rd_of (make_instruction op rd rs rt imm) = rd ∧
    rs_of (make_instruction op rd rs rt imm) = rs ∧
    rt_of (make_instruction op rd rs rt imm) = rt ∧
    imm_of (make_instruction op rd rs rt imm) = imm &&& 0xFFFF := by
  have hmask : imm &&& 0xFFFF = imm % 2 ^ 16 := by
    have h : (0xFFFF : Nat) = 2 ^ 16 - 1 := by norm_num
    rw [h, Nat.and_pow_two_sub_one_eq_mod]
  have hw := make_instruction_eq op rd rs rt imm hop hrd hrs hrt
  have h15 : (0b1111 : Nat) = 2 ^ 4 - 1 := by norm_num
  have himm : imm % 2 ^ 16 < 2 ^ 16 := Nat.mod_lt _ (by norm_num)
  unfold opcode_of rd_of rs_of rt_of imm_of
  rw [hw, hmask, h15]
  have hff : (0xFFFF : Nat) = 2 ^ 16 - 1 := by norm_num
  rw [hff]
  simp only [Nat.shiftRight_eq_div_pow, Nat.and_pow_two_sub_one_eq_mod]
  refine ⟨?_, ?_, ?_, ?_, ?_⟩ <;> omega

/-- Witness for C6 at a concrete instruction whose immediate overflows 16 bits. -/
theorem decode_make_instruction_witness :
    (8 : Nat) < 16 ∧ (1 : Nat) < 16 ∧ (2 : Nat) < 16 ∧ (3 : Nat) < 16 ∧
    (opcode_of (make_instruction 8 1 2 3 70000) = 8 ∧
     rd_of (make_instruction 8 1 2 3 70000) = 1 ∧
     rs_of (make_instruction 8 1 2 3 70000) = 2 ∧
     rt_of (make_instruction 8 1 2 3 70000) = 3 ∧
     imm_of (make_instruction 8 1 2 3 70000) = 70000 &&& 0xFFFF) :=
  ⟨by decide, by decide, by decide, by decide,
   decode_make_instruction 8 1 2 3 70000 (by decide) (by decide) (by decide) (by decide)⟩

/-! ## Memory controller (`MemoryController`, `Phase5/phase5.py`)

The Python dict `cache` preserves insertion order and `next(iter(cache))` is the
oldest-inserted key, so the cache is modelled as an insertion-ordered
association list.  The statistics counters (`read_count`, `write_count`,
`cache_hits`) are telemetry never read by the core and are omitted; the locks
serialize access and vanish in this sequential model. -/

/-- `MEMORY_SIZE = 1024`. -/
def MEMORY_SIZE : Nat := 1024

/-- `self.cache_size = 64` in `MemoryController.__init__`. -/
def cache_size : Nat := 64

/-- State of a `MemoryController`: backing array `memory` (`[0] * size`) and the
write-through `cache` dict.  Word values are kept as `Nat` (every stored word is
masked to 32 bits); addresses are Python ints. -/
structure MCState where
  memory : List Nat
  cache : List (Int × Nat)
deriving DecidableEq

/-- Python `cache[addr]` presence/lookup on the insertion-ordered dict. -/
def dict_lookup (c : List (Int × Nat)) (a : Int) : Option Nat :=
  match c with
  | [] => none
  | (k, v) :: rest => if k = a then some v else dict_lookup rest a

/-- Python `cache[addr] = v`: update in place if the key exists (keeping its
position), else append at the end. -/
def dict_insert (c : List (Int × Nat)) (a : Int) (v : Nat) : List (Int × Nat) :=
  match c with
  | [] => [(a, v)]
  | (k, w) :: rest => if k = a then (k, v) :: rest else (k, w) :: dict_insert rest a v

/-- Fresh `MemoryController(size)`: `memory = [0] * size`, empty cache. -/
def MemoryController.init (size : Nat) : MCState :=
  { memory := List.replicate size 0, cache := [] }

/-- `MemoryController.read(addr)`: cache hit returns the cached value; on a miss
an in-range address is read from the backing array and inserted into the cache
(evicting the oldest entry when the cache is full); an out-of-range address
returns 0 without caching. -/
def MemoryController.read (s : MCState) (addr : Int) : MCState × Nat :=
  match dict_lookup s.cache addr with
  | some v => (s, v)
  | none =>
    if 0 ≤ addr ∧ addr < (s.memory.length : Int) then
      let value := s.memory.getD addr.toNat 0
      let evicted := if cache_size ≤ s.cache.length then s.cache.drop 1 else s.cache
      ({ s with cache := dict_insert evicted addr value }, value)
    else (s, 0)

/-- `MemoryController.write(addr, value)`: in range, store `value & 0xFFFFFFFF`
in the backing array and write through to the cache, returning `True`;
otherwise return `False` without mutation. -/
def MemoryController.write (s : MCState) (addr : Int) (value : Int) : MCState × Bool :=
  if 0 ≤ addr ∧ addr < (s.memory.length : Int) then
    ({ memory := s.memory.set addr.toNat (value % 2 ^ 32).toNat,
       cache := dict_insert s.cache addr (value % 2 ^ 32).toNat }, true)
  else (s, false)

/-- The write loop of `bulk_load`: each word is masked and stored at
`start_addr + offset * 4`, writing through to the cache. -/
def bulk_write (s : MCState) : List Nat → Nat → MCState
  | [], _ => s
  | instr :: rest, addr =>
    bulk_write { memory := s.memory.set addr (instr &&& 0xFFFFFFFF),
                 cache := dict_insert s.cache addr (instr &&& 0xFFFFFFFF) } rest (addr + 4)

/-- `MemoryController.bulk_load(program, start_addr)`: fails when the sequence
would exceed memory, otherwise writes the block and returns `True`. -/
def MemoryController.bulk_load (s : MCState) (program : List Nat) (start_addr : Nat) :
    MCState × Bool :=
  if start_addr + program.length * 4 > s.memory.length then (s, false)
  else (bulk_write s program start_addr, true)

/-- `MemoryController.flush_cache()`: `cache.clear()`. -/
def MemoryController.flush_cache (s : MCState) : MCState :=
  { s with cache := [] }

theorem bulk_write_memory_length (program : List Nat) (s : MCState) (addr : Nat) :
    (bulk_write s program addr).memory.length = s.memory.length := by
  induction program generalizing s addr with
  | nil => rfl
  | cons instr rest ih => simp [bulk_write, ih]

theorem bulk_write_cache_length_self (program : List Nat) (s : MCState) (addr : Nat) :
    (bulk_write s program addr).memory.length = s.memory.length :=
  bulk_write_memory_length program s addr

/-- Addresses that are not among the written offsets are untouched by the
`bulk_load` write loop. -/
theorem bulk_write_getD_frame (program : List Nat) (s : MCState) (addr b : Nat)
    (h : ∀ i, i < program.length → b ≠ addr + 4 * i) :
    (bulk_write s program addr).memory.getD b 0 = s.memory.getD b 0 := by
  induction program generalizing s addr with
  | nil => rfl
  | cons instr rest ih =>
    have hb0 : b ≠ addr := by
      have := h 0 (by simp)
      simpa using this
    rw [bulk_write, ih]
    · simp [List.getD_eq_getElem?_getD, List.getElem?_set_ne (by omega : addr ≠ b)]
    · intro i hi
      have := h (i + 1) (by simpa using Nat.succ_lt_succ hi)
      omega

/-- Each word of the block lands, masked, at its 4-byte-spaced address. -/
theorem bulk_write_getD_hit (program : List Nat) (s : MCState) (addr : Nat)
    (hlen : addr + program.length * 4 ≤ s.memory.length) :
    ∀ i, i < program.length →
      (bulk_write s program addr).memory.getD (addr + 4 * i) 0 =
        program.getD i 0 &&& 0xFFFFFFFF := by
  induction program generalizing s addr with
  | nil => intro i hi; simp at hi
  | cons instr rest ih =>
    intro i hi
    cases i with
    | zero =>
      rw [bulk_write, bulk_write_getD_frame]
      · have haddr : addr < s.memory.length := by simp at hlen; omega
        simp [List.getD_eq_getElem?_getD, List.getElem?_set_self haddr]
      · intro j _; omega
    | succ i =>
      have heq : addr + 4 * (i + 1) = (addr + 4) + 4 * i := by omega
      have hi' : i < rest.length := by simpa using Nat.lt_of_succ_lt_succ hi
      have hlen' : (addr + 4) + rest.length * 4 ≤
          ({ memory := s.memory.set addr (instr &&& 0xFFFFFFFF),
             cache := dict_insert s.cache addr (instr &&& 0xFFFFFFFF) } : MCState).memory.length := by
        simp at hlen ⊢; omega
      rw [bulk_write, heq, ih _ _ hlen' i hi']
      simp

/-- C7: `write` on an out-of-range address returns `False` with neither backing
array nor cache changed; `bulk_load` returns `False` without mutation whenever
`start_addr + 4 * len(words)` exceeds `SIZE`, and otherwise returns `True`
having written the words, masked to 32 bits, at consecutive 4-byte-spaced
addresses from `start_addr`, all other addresses untouched. -/
theorem write_bulk_load_range (s : MCState) (addr value : Int) (program : List Nat)
    (start_addr : Nat) (haddr : addr < 0 ∨ (s.memory.length : Int) ≤ addr) :
    MemoryController.write s addr value = (s, false) ∧
    (s.memory.length < start_addr + program.length * 4 →
      MemoryController.bulk_load s program start_addr = (s, false)) ∧
    (start_addr + program.length * 4 ≤ s.memory.length →
      (MemoryController.bulk_load s program start_addr).2 = true ∧
      (∀ i, i < program.length →
        (MemoryController.bulk_load s program start_addr).1.memory.getD (start_addr + 4 * i) 0 =
          program.getD i 0 &&& 0xFFFFFFFF) ∧
      (∀ b, (∀ i, i < program.length → b ≠ start_addr + 4 * i) →
        (MemoryController.bulk_load s program start_addr).1.memory.getD b 0 =
          s.memory.getD b 0)) := by
  refine ⟨?_, ?_, ?_⟩
  · unfold MemoryController.write
    rw [if_neg]
    omega
  · intro h
    unfold MemoryController.bulk_load
    rw [if_pos]
    omega
  · intro h
    unfold MemoryController.bulk_load
    rw [if_neg (by omega)]
    refine ⟨rfl, ?_, ?_⟩
    · exact bulk_write_getD_hit program s start_addr (by omega)
    · intro b hb
      exact bulk_write_getD_frame program s start_addr b hb

/-- Witness for C7 on a concrete 8-byte controller. -/
theorem write_bulk_load_range_witness :
    ((10 : Int) < 0 ∨ (((MemoryController.init 8).memory.length : Int) ≤ 10)) ∧
    MemoryController.write (MemoryController.init 8) 10 5 = (MemoryController.init 8, false) ∧
    ((MemoryController.init 8).memory.length < 0 + [(7 : Nat), 9].length * 4 →
      MemoryController.bulk_load (MemoryController.init 8) [7, 9] 0 =
        (MemoryController.init 8, false)) ∧
    (0 + [(7 : Nat), 9].length * 4 ≤ (MemoryController.init 8).memory.length →
      (MemoryController.bulk_load (MemoryController.init 8) [7, 9] 0).2 = true ∧
      (∀ i, i < [(7 : Nat), 9].length →
        (MemoryController.bulk_load (MemoryController.init 8) [7, 9] 0).1.memory.getD
          (0 + 4 * i) 0 = [(7 : Nat), 9].getD i 0 &&& 0xFFFFFFFF) ∧
      (∀ b, (∀ i, i < [(7 : Nat), 9].length → b ≠ 0 + 4 * i) →
        (MemoryController.bulk_load (MemoryController.init 8) [7, 9] 0).1.memory.getD b 0 =
          (MemoryController.init 8).memory.getD b 0)) :=
  ⟨Or.inr (by decide),
   (write_bulk_load_range (MemoryController.init 8) 10 5 [7, 9] 0 (Or.inr (by decide))).1,
   (write_bulk_load_range (MemoryController.init 8) 10 5 [7, 9] 0 (Or.inr (by decide))).2.1,
   (write_bulk_load_range (MemoryController.init 8) 10 5 [7, 9] 0 (Or.inr (by decide))).2.2⟩

/-! ### Cache coherence (C8) -/

/-- One sequential operation against the memory controller interface. -/
inductive MCOp where
  | readOp (addr : Int)
  | writeOp (addr : Int) (value : Int)
  | bulkLoadOp (program : List Nat) (start_addr : Nat)
  | flushCacheOp

/-- Apply one interface operation, keeping only the state. -/
def MCState.apply (s : MCState) : MCOp → MCState
  | .readOp a => (MemoryController.read s a).1
  | .writeOp a v => (MemoryController.write s a v).1
  | .bulkLoadOp p a => (MemoryController.bulk_load s p a).1
  | .flushCacheOp => MemoryController.flush_cache s

/-- Run a sequence of interface operations from a state. -/
def MCState.applyAll (s : MCState) (ops : List MCOp) : MCState :=
  ops.foldl MCState.apply s

/-- Cache coherence: every address present in the cache is in range and maps to
the value the backing memory holds at that address. -/
def CacheCoherent (s : MCState) : Prop :=
  ∀ a v, dict_lookup s.cache a = some v →
    0 ≤ a ∧ a.toNat < s.memory.length ∧ s.memory.getD a.toNat 0 = v

/-- Internal invariant: cache keys are distinct and every cache entry is in
range and agrees with the backing memory. -/
def CacheInv (s : MCState) : Prop :=
  (s.cache.map Prod.fst).Nodup ∧
  ∀ p ∈ s.cache, 0 ≤ p.1 ∧ p.1.toNat < s.memory.length ∧ s.memory.getD p.1.toNat 0 = p.2

theorem dict_lookup_mem {c : List (Int × Nat)} {a : Int} {v : Nat}
    (h : dict_lookup c a = some v) : (a, v) ∈ c := by
  induction c with
  | nil => simp [dict_lookup] at h
  | cons p rest ih =>
    obtain ⟨k, w⟩ := p
    rw [dict_lookup] at h
    by_cases hk : k = a
    · simp [hk] at h
      simp [hk, h]
    · simp [hk] at h
      simp [ih h]

theorem dict_insert_keys_sub {c : List (Int × Nat)} {a b : Int} {v : Nat}
    (h : b ∈ (dict_insert c a v).map Prod.fst) : b ∈ c.map Prod.fst ∨ b = a := by
  induction c with
  | nil => simp [dict_insert] at h; simp [h]
  | cons p rest ih =>
    obtain ⟨k, w⟩ := p
    rw [dict_insert] at h
    by_cases hk : k = a
    · simp [hk] at h
      rcases h with h | h
      · right; omega
      · left; simp [h]
    · simp [hk] at h
      rcases h with h | h
      · left; simp [h]
      · rcases ih (by simpa using h) with h' | h'
        · left; simp [h']
        · right; exact h'

theorem dict_insert_keys_nodup {c : List (Int × Nat)} {a : Int} {v : Nat}
    (h : (c.map Prod.fst).Nodup) : ((dict_insert c a v).map Prod.fst).Nodup := by
  induction c with
  | nil => simp [dict_insert]
  | cons p rest ih =>
    obtain ⟨k, w⟩ := p
    rw [dict_insert]
    by_cases hk : k = a
    · simpa [hk] using h
    · simp only [hk, if_false, List.map_cons, List.nodup_cons] at h ⊢
      refine ⟨?_, ih h.2⟩
      intro hmem
      rcases dict_insert_keys_sub hmem with h' | h'
      · exact h.1 h'
      · exact hk h'

theorem dict_insert_mem {c : List (Int × Nat)} {a : Int} {v : Nat} {p : Int × Nat}
    (hnd : (c.map Prod.fst).Nodup) (h : p ∈ dict_insert c a v) :
    p = (a, v) ∨ (p ∈ c ∧ p.1 ≠ a) := by
  induction c with
  | nil => simp [dict_insert] at h; simp [h]
  | cons q rest ih =>
    obtain ⟨k, w⟩ := q
    simp only [List.map_cons, List.nodup_cons] at hnd
    rw [dict_insert] at h
    by_cases hk : k = a
    · subst hk
      simp at h
      rcases h with h | h
      · left; simp [h]
      · right
        refine ⟨List.mem_cons_of_mem _ h, ?_⟩
        intro hpk
        exact hnd.1 (hpk ▸ List.mem_map_of_mem Prod.fst h)
    · simp [hk] at h
      rcases h with h | h
      · right; exact ⟨by simp [h], by simp [h, hk]⟩
      · rcases ih hnd.2 h with h' | h'
        · left; exact h'
        · right; exact ⟨List.mem_cons_of_mem _ h'.1, h'.2⟩

/-- A write-through update (backing-array `set` plus cache insert of the same
value at the same in-range address) preserves the cache invariant. -/
theorem cacheInv_set_insert (s : MCState) (n : Nat) (v : Nat) (hn : n < s.memory.length)
    (h : CacheInv s) :
    CacheInv { memory := s.memory.set n v, cache := dict_insert s.cache (n : Int) v } := by
  refine ⟨dict_insert_keys_nodup h.1, ?_⟩
  intro p hp
  rcases dict_insert_mem h.1 hp with hp' | ⟨hp', hpk⟩
  · subst hp'
    refine ⟨by positivity, by simpa using hn, ?_⟩
    simp [List.getD_eq_getElem?_getD, List.getElem?_set_self (by simpa using hn)]
  · obtain ⟨h0, hlt, hv⟩ := h.2 p hp'
    refine ⟨h0, by simpa using hlt, ?_⟩
    rw [← hv]
    have hne : n ≠ p.1.toNat := by omega
    simp [List.getD_eq_getElem?_getD, List.getElem?_set_ne hne]

theorem cacheInv_read (s : MCState) (a : Int) (h : CacheInv s) :
    CacheInv (MemoryController.read s a).1 := by
  unfold MemoryController.read
  cases hl : dict_lookup s.cache a with
  | some v => exact h
  | none =>
    simp only
    split
    · next hrange =>
      refine ⟨?_, ?_⟩
      · apply dict_insert_keys_nodup
        split
        · next =>
          rw [List.map_drop]
          exact h.1.sublist (List.drop_sublist 1 _)
        · exact h.1
      · intro p hp
        have hsub : ∀ q : Int × Nat,
            q ∈ (if cache_size ≤ s.cache.length then s.cache.drop 1 else s.cache) →
            q ∈ s.cache := by
          intro q hq
          split at hq
          · exact List.drop_subset _ _ hq
          · exact hq
        have hnd : ((if cache_size ≤ s.cache.length then s.cache.drop 1 else s.cache).map
            Prod.fst).Nodup := by
          split
          · rw [List.map_drop]; exact h.1.sublist (List.drop_sublist 1 _)
          · exact h.1
        rcases dict_insert_mem hnd hp with hp' | ⟨hp', _⟩
        · subst hp'
          refine ⟨hrange.1, ?_, rfl⟩
          show a.toNat < s.memory.length
          omega
        · exact h.2 p (hsub p hp')
    · exact h

theorem cacheInv_write (s : MCState) (a v : Int) (h : CacheInv s) :
    CacheInv (MemoryController.write s a v).1 := by
  unfold MemoryController.write
  split
  · next hrange =>
    have ha : ((a.toNat : Int)) = a := Int.toNat_of_nonneg hrange.1
    have := cacheInv_set_insert s a.toNat (v % 2 ^ 32).toNat (by omega) h
    rw [ha] at this
    exact this
  · exact h

theorem cacheInv_bulk_write (program : List Nat) (s : MCState) (addr : Nat)
    (hlen : addr + program.length * 4 ≤ s.memory.length) (h : CacheInv s) :
    CacheInv (bulk_write s program addr) := by
  induction program generalizing s addr with
  | nil => exact h
  | cons instr rest ih =>
    rw [bulk_write]
    apply ih
    · simp at hlen ⊢; omega
    · exact cacheInv_set_insert s addr (instr &&& 0xFFFFFFFF) (by simp at hlen; omega) h

theorem cacheInv_apply (s : MCState) (op : MCOp) (h : CacheInv s) : CacheInv (s.apply op) := by
  cases op with
  | readOp a => exact cacheInv_read s a h
  | writeOp a v => exact cacheInv_write s a v h
  | bulkLoadOp p a =>
    show CacheInv (MemoryController.bulk_load s p a).1
    unfold MemoryController.bulk_load
    split
    · exact h
    · next hguard => exact cacheInv_bulk_write p s a (by omega) h
  | flushCacheOp =>
    show CacheInv (MemoryController.flush_cache s)
    refine ⟨by simp [MemoryController.flush_cache], ?_⟩
    intro p hp
    simp [MemoryController.flush_cache] at hp

theorem cacheInv_applyAll (ops : List MCOp) (s : MCState) (h : CacheInv s) :
    CacheInv (MCState.applyAll s ops) := by
  induction ops generalizing s with
  | nil => exact h
  | cons op rest ih => exact ih _ (cacheInv_apply s op h)

/-- C8: starting from a fresh memory controller, after any sequence of `read`,
`write`, `bulk_load` and `flush_cache` operations, every address present in the
cache maps to the value the backing memory holds at that address. -/
theorem cache_coherent_of_ops (ops : List MCOp) :
    CacheCoherent (MCState.applyAll (MemoryController.init MEMORY_SIZE) ops) := by
  have hinv : CacheInv (MemoryController.init MEMORY_SIZE) := by
    refine ⟨by simp [MemoryController.init], ?_⟩
    intro p hp
    simp [MemoryController.init] at hp
  have h := cacheInv_applyAll ops _ hinv
  intro a v hl
  exact h.2 (a, v) (dict_lookup_mem hl)

/-! ## Flag and ALU semantics (`InstructionSetSimulator`)

`alu_operation` and `cmp` are textually identical in `phase3.py` and in the
base `InstructionSetSimulator` of `Phase5/phase5.py`; they are embedded once.
Registers hold Python ints, modelled as `Int`; `x & 0xFFFFFFFF` is
`x % 2 ^ 32`, and `(x >> 31) & 1` is `(x / 2 ^ 31) % 2` (Python's shift of
a possibly negative int is floor division, which is Lean's `Int` `/` for a
positive divisor). -/

structure Flags where
  Z : Bool
  C : Bool
  N : Bool
deriving DecidableEq

/-- Python bitwise ops on register values.  Register values are nonnegative in
the modelled executions (every register write is masked to 32 bits or copies a
nonnegative value), so Python's two's-complement bitwise ops coincide with the
`Nat` ops through `toNat`. -/
def pyAnd (a b : Int) : Int := ((a.toNat &&& b.toNat : Nat) : Int)

def pyOr (a b : Int) : Int := ((a.toNat ||| b.toNat : Nat) : Int)

def pyXor (a b : Int) : Int := ((a.toNat ^^^ b.toNat : Nat) : Int)

/-- `InstructionSetSimulator.alu_operation(op, rd, rs, rt)`: compute the raw
result and the `C` flag per operation (`DIV` raises on a zero divisor, any
other unknown `op` string raises), then mask the result to 32 bits, store it in
`rd` and set `Z` and `N` from the masked result. -/
def alu_operation (op : String) (registers : List Int) (flags : Flags) (rd rs rt : Nat) :
    Option (List Int × Flags) :=
  let a := registers.getD rs 0
  let b := registers.getD rt 0
  let step : Option (Int × Flags) :=
    if op = "ADD" then some (a + b, { flags with C := decide (a + b > 0xFFFFFFFF) })
    else if op = "SUB" then some (a - b, { flags with C := decide (b > a) })
    else if op = "MUL" then some (a * b, { flags with C := decide (a * b > 0xFFFFFFFF) })
    else if op = "DIV" then (if b = 0 then none else some (a.fdiv b, flags))
    else if op = "AND" then some (pyAnd a b, flags)
    else if op = "OR" then some (pyOr a b, flags)
    else if op = "XOR" then some (pyXor a b, flags)
    else none
  match step with
  | none => none
  | some (result0, flags1) =>
    let result := result0 % 2 ^ 32
    some (registers.set rd result,
      { flags1 with Z := decide (result = 0), N := decide ((result / 2 ^ 31) % 2 = 1) })

/-- `InstructionSetSimulator.cmp`: `result = regs[rs] - regs[rt]` (unmasked);
`Z = (result == 0)`, `N = ((result >> 31) & 1) == 1`, `C = regs[rt] > regs[rs]`. -/
def cmp_flags (registers : List Int) (flags : Flags) (rs rt : Nat) : Flags :=
  let a := registers.getD rs 0
  let b := registers.getD rt 0
  let result := a - b
  { flags with Z := decide (result = 0),
               N := decide ((result / 2 ^ 31) % 2 = 1),
               C := decide (b > a) }

theorem getD_set_self_of_lt (l : List Int) (n : Nat) (v : Int) (h : n < l.length) :
    (l.set n v).getD n 0 = v := by
  simp [List.getD_eq_getElem?_getD, List.getElem?_set_self h]

/-- For a value already reduced mod `2^32`, the code's `((x >> 31) & 1) == 1` is
the claim's "bit 31 is set", i.e. `2^31 ≤ x`. -/
theorem n_flag_of_masked (x : Int) :
    decide ((x % 2 ^ 32 / 2 ^ 31) % 2 = 1) = decide (2 ^ 31 ≤ x % 2 ^ 32) := by
  rw [decide_eq_decide]
  omega

/-- C5: after each committed ALU operation, with in-range operands, `Z` is
"the stored low-32-bit result is zero" and `N` is bit 31 of the stored result;
after `SUB` the `C` flag is `regs[rt] > regs[rs]`.  After `CMP`, `Z`, `N` are
the same predicates of the low 32 bits of `regs[rs] - regs[rt]` and
`C = regs[rt] > regs[rs]`. -/
theorem alu_cmp_flag_semantics (registers : List Int) (flags : Flags) (rd rs rt : Nat)
    (hlen : registers.length = 16) (hrd : rd < 16)
    (ha0 : 0 ≤ registers.getD rs 0) (ha32 : registers.getD rs 0 < 2 ^ 32)
    (hb0 : 0 ≤ registers.getD rt 0) (hb32 : registers.getD rt 0 < 2 ^ 32) :
    (∀ op ∈ ["ADD", "SUB", "MUL", "DIV", "AND", "OR", "XOR"],
      (op = "DIV" → registers.getD rt 0 ≠ 0) →
      ∃ registers' flags',
        alu_operation op registers flags rd rs rt = some (registers', flags') ∧
        flags'.Z = decide (registers'.getD rd 0 = 0) ∧
        flags'.N = decide (2 ^ 31 ≤ registers'.getD rd 0) ∧
        (op = "SUB" → flags'.C = decide (registers.getD rt 0 > registers.getD rs 0))) ∧
    ((cmp_flags registers flags rs rt).Z
        = decide ((registers.getD rs 0 - registers.getD rt 0) % 2 ^ 32 = 0) ∧
     (cmp_flags registers flags rs rt).N
        = decide (2 ^ 31 ≤ (registers.getD rs 0 - registers.getD rt 0) % 2 ^ 32) ∧
     (cmp_flags registers flags rs rt).C
        = decide (registers.getD rt 0 > registers.getD rs 0)) := by
  have hset : ∀ v : Int, (registers.set rd v).getD rd 0 = v := by
    intro v
    exact getD_set_self_of_lt registers rd v (by omega)
  constructor
  · intro op hop hdiv
    fin_cases hop
    · exact ⟨_, _, rfl, by rw [hset], by rw [hset]; exact n_flag_of_masked _,
        fun h => absurd h (by decide)⟩
    · exact ⟨_, _, rfl, by rw [hset], by rw [hset]; exact n_flag_of_masked _,
        fun _ => rfl⟩
    · exact ⟨_, _, rfl, by rw [hset], by rw [hset]; exact n_flag_of_masked _,
        fun h => absurd h (by decide)⟩
    · have hb : registers.getD rt 0 ≠ 0 := hdiv rfl
      have hred : alu_operation "DIV" registers flags rd rs rt =
          match (if registers.getD rt 0 = 0 then none
                 else some ((registers.getD rs 0).fdiv (registers.getD rt 0), flags)
                 : Option (Int × Flags)) with
          | none => none
          | some (result0, flags1) =>
            some (registers.set rd (result0 % 2 ^ 32),
              { flags1 with Z := decide (result0 % 2 ^ 32 = 0),
                            N := decide ((result0 % 2 ^ 32 / 2 ^ 31) % 2 = 1) }) := rfl
      rw [hred, if_neg hb]
      exact ⟨_, _, rfl, by rw [hset], by rw [hset]; exact n_flag_of_masked _,
        fun h => absurd h (by decide)⟩
    · exact ⟨_, _, rfl, by rw [hset], by rw [hset]; exact n_flag_of_masked _,
        fun h => absurd h (by decide)⟩
    · exact ⟨_, _, rfl, by rw [hset], by rw [hset]; exact n_flag_of_masked _,
        fun h => absurd h (by decide)⟩
    · exact ⟨_, _, rfl, by rw [hset], by rw [hset]; exact n_flag_of_masked _,
        fun h => absurd h (by decide)⟩
  · refine ⟨?_, ?_, rfl⟩
    · show decide (registers.getD rs 0 - registers.getD rt 0 = 0) = _
      rw [decide_eq_decide]
      omega
    · show decide (((registers.getD rs 0 - registers.getD rt 0) / 2 ^ 31) % 2 = 1) = _
      rw [decide_eq_decide]
      omega

/-- Witness for C5: a 16-register file with `regs[2] = 5`, `regs[3] = 3`,
destination `R1`. -/
theorem alu_cmp_flag_semantics_witness :
    ([5, 5, 5, 3, 0, 0, 0, 0, 0, 0, 0, 0, 0, 0, 0, (0 : Int)].length = 16 ∧ 1 < 16) ∧
    (∀ op ∈ ["ADD", "SUB", "MUL", "DIV", "AND", "OR", "XOR"],
      (op = "DIV" →
        [5, 5, 5, 3, 0, 0, 0, 0, 0, 0, 0, 0, 0, 0, 0, (0 : Int)].getD 3 0 ≠ 0) →
      ∃ registers' flags',
        alu_operation op [5, 5, 5, 3, 0, 0, 0, 0, 0, 0, 0, 0, 0, 0, 0, (0 : Int)]
            ⟨false, false, false⟩ 1 2 3 = some (registers', flags') ∧
        flags'.Z = decide (registers'.getD 1 0 = 0) ∧
        flags'.N = decide (2 ^ 31 ≤ registers'.getD 1 0) ∧
        (op = "SUB" → flags'.C =
          decide ([5, 5, 5, 3, 0, 0, 0, 0, 0, 0, 0, 0, 0, 0, 0, (0 : Int)].getD 3 0 >
            [5, 5, 5, 3, 0, 0, 0, 0, 0, 0, 0, 0, 0, 0, 0, (0 : Int)].getD 2 0))) :=
  ⟨⟨by decide, by decide⟩,
   (alu_cmp_flag_semantics [5, 5, 5, 3, 0, 0, 0, 0, 0, 0, 0, 0, 0, 0, 0, 0]
      ⟨false, false, false⟩ 1 2 3 (by decide) (by decide) (by decide) (by decide)
      (by decide) (by decide)).1⟩

/-! ## BEQ target computation (C4)

`Phase5/phase5.py` and `phase3.py` implement `InstructionSetSimulator.beq`
differently: the phase-5 family sign-extends a 16-bit offset and adds it to the
pre-increment PC, while `phase3.py` jumps to an absolute 24-bit address. -/

/-- The offset computation of `InstructionSetSimulator.beq` in
`Phase5/phase5.py`: `offset = instr & 0xFFFF; if offset & 0x8000:
offset = offset - 0x10000`. -/
def beq_offset_int (instr : Nat) : Int :=
  let offset := instr &&& 0xFFFF
  if offset &&& 0x8000 ≠ 0 then (offset : Int) - 0x10000 else (offset : Int)

/-- New PC computed by `InstructionSetSimulator.beq` of `Phase5/phase5.py`:
`if Z: pc = (pc - 4) + offset`. -/
def beq_pc (pc : Int) (z : Bool) (instr : Nat) : Int :=
  if z then (pc - 4) + beq_offset_int instr else pc

/-- New PC computed by `InstructionSetSimulator.beq` of `phase3.py`:
`target_addr = instr & 0x00FFFFFF; if Z: pc = target_addr`. -/
def phase3_beq_pc (pc : Int) (z : Bool) (instr : Nat) : Int :=
  let target_addr := instr &&& 0xFFFFFF
  if z then (target_addr : Int) else pc

/-- The spec's `sign_extend_16`, applied to the low 16 bits of an instruction
word: values at or above `2^15` represent negatives. -/
def sign_extend_16 (imm : Nat) : Int :=
  if 2 ^ 15 ≤ imm then (imm : Int) - 2 ^ 16 else (imm : Int)

theorem and_0x8000_ne_zero {n : Nat} (hn : n < 2 ^ 16) :
    (n &&& 0x8000 ≠ 0) ↔ 2 ^ 15 ≤ n := by
  have h : (0x8000 : Nat) = 2 ^ 15 := by norm_num
  rw [h, Nat.and_two_pow, Nat.testBit_to_div_mod]
  by_cases hc : n / 2 ^ 15 % 2 = 1
  · simp only [hc, decide_True, Bool.toNat_true]
    omega
  · simp only [hc, decide_False, Bool.toNat_false]
    omega

theorem and_0xFFFF_lt (instr : Nat) : instr &&& 0xFFFF < 2 ^ 16 := by
  have h : (0xFFFF : Nat) = 2 ^ 16 - 1 := by norm_num
  rw [h, Nat.and_pow_two_sub_one_eq_mod]
  exact Nat.mod_lt _ (by norm_num)

/-- The sign-extension branch of the phase-5 `beq` computes exactly
`sign_extend_16` of the low 16 bits. -/
theorem beq_offset_eq_sign_extend (instr : Nat) :
    beq_offset_int instr = sign_extend_16 (imm_of instr) := by
  have hlt := and_0xFFFF_lt instr
  unfold beq_offset_int sign_extend_16 imm_of
  by_cases hc : 2 ^ 15 ≤ instr &&& 0xFFFF
  · rw [if_pos ((and_0x8000_ne_zero hlt).mpr hc), if_pos hc]
    norm_num
  · rw [if_neg (fun h => hc ((and_0x8000_ne_zero hlt).mp h)), if_neg hc]

/-- C4 (amended): in the `Phase5/phase5.py` simulator family, BEQ with Z set
sets PC to `(pc - 4) + sign_extend_16(imm)` and leaves PC unchanged with Z
clear; in `phase3.py`, BEQ with Z set jumps to the absolute 24-bit address
`instr & 0x00FFFFFF`, and leaves PC unchanged with Z clear. -/
theorem beq_pc_semantics (pc : Int) (instr : Nat) :
    beq_pc pc true instr = (pc - 4) + sign_extend_16 (imm_of instr) ∧
    beq_pc pc false instr = pc ∧
    phase3_beq_pc pc true instr = ((instr &&& 0xFFFFFF : Nat) : Int) ∧
    phase3_beq_pc pc false instr = pc := by
  refine ⟨?_, rfl, rfl, rfl⟩
  show (pc - 4) + _ = (pc - 4) + sign_extend_16 (imm_of instr)
  rw [beq_offset_eq_sign_extend instr]

/-- C4 counterexample: with Z set, PC already advanced to 8, and the BEQ word
`make_instruction(0b0110, address_or_operand=0x40)`, the `phase3.py`
interpreter jumps to the absolute address `0x40 = 64`, not to
`(8 - 4) + sign_extend_16(0x40) = 68` as the claim states for every BEQ. -/
theorem phase3_beq_not_relative :
    phase3_beq_pc 8 true (make_instruction 6 0 0 0 64) = 64 ∧
    (8 - 4) + sign_extend_16 (imm_of (make_instruction 6 0 0 0 64)) = 68 ∧
    phase3_beq_pc 8 true (make_instruction 6 0 0 0 64) ≠
      (8 - 4) + sign_extend_16 (imm_of (make_instruction 6 0 0 0 64)) := by
  refine ⟨by decide, by decide, by decide⟩

/-! ## Pipelined thread context (`ThreadContext`, `Phase5/phase5.py`)

A `ThreadContext` owns the architectural state (registers, PC, stack, flags,
the per-thread `state.memory` dict, halt bit), the three pipeline slots
F/D/E, the stall/flush/pc-changed indicators, the `modified_registers` set
(never written to by `ThreadContext.execute_instruction`, so modelled as a
list that only ever gets cleared), the step counter and the log, and a
reference to the shared `MemoryController`.  Python exceptions raised by
instruction handlers propagate out of `pipeline_step`, modelled with
`Except` whose `error` carries the state at the moment of the raise.  Log
strings keep the message text without the interpolated numeric prefixes.
The Python stack (append/pop at the right end) is modelled top-first. -/

structure TCState where
  registers : List Int
  pc : Int
  stack : List Int
  flags : Flags
  memory : List (Int × Int)
  halted : Bool
  current_instruction : Nat
  pipelineF : Option Nat
  pipelineD : Option Nat
  pipelineE : Option Nat
  stall_detected : Bool
  flush_detected : Bool
  pc_changed : Bool
  modified_registers : List Nat
  step_count : Nat
  log : List String
  mem : MCState
deriving DecidableEq

/-- Lookup in a Python dict with integer keys, with default (`dict.get`). -/
def dict_get (c : List (Int × Int)) (a : Int) (dflt : Int) : Int :=
  match c with
  | [] => dflt
  | (k, v) :: rest => if k = a then v else dict_get rest a dflt

/-- Fresh `ThreadContext(core_id, thread_id, memory)` sharing controller `m`. -/
def ThreadContext.init (m : MCState) : TCState :=
  { registers := List.replicate 16 0, pc := 0, stack := [], flags := ⟨false, false, false⟩,
    memory := [], halted := false, current_instruction := 0, pipelineF := none,
    pipelineD := none, pipelineE := none, stall_detected := false, flush_detected := false,
    pc_changed := false, modified_registers := [], step_count := 0, log := [], mem := m }

/-- `nop`: log only. -/
def nop_ins (s : TCState) : TCState := { s with log := s.log ++ ["NOP"] }

/-- `call` (phase-5 base class): 16-bit target, push the return PC, jump.
Note that nothing here (nor in any other handler) assigns `pc_changed`. -/
def call_ins (s : TCState) : TCState :=
  let addr := s.current_instruction &&& 0xFFFF
  { s with stack := s.pc :: s.stack, pc := (addr : Int), log := s.log ++ ["CALL"] }

/-- `ret`: raises on an empty stack (after logging), else pop into PC. -/
def ret_ins (s : TCState) : Except TCState TCState :=
  match s.stack with
  | [] => .error { s with log := s.log ++ ["RET ERROR: Stack underflow!"] }
  | return_addr :: rest =>
    .ok { s with stack := rest, pc := return_addr, log := s.log ++ ["RET"] }

/-- `halt`: set the halt bit. -/
def halt_ins (s : TCState) : TCState :=
  { s with halted := true, log := s.log ++ ["HALT"] }

/-- `push`: the register index is 4 bits, so the range check never fires. -/
def push_ins (s : TCState) : Except TCState TCState :=
  let reg := (s.current_instruction >>> 24) &&& 0b1111
  if s.registers.length ≤ reg then .error s
  else .ok { s with stack := s.registers.getD reg 0 :: s.stack, log := s.log ++ ["PUSH"] }

/-- `pop`: raises on an empty stack (after logging); the register range check
never fires. -/
def pop_ins (s : TCState) : Except TCState TCState :=
  match s.stack with
  | [] => .error { s with log := s.log ++ ["POP ERROR: Stack underflow!"] }
  | top :: rest =>
    let reg := (s.current_instruction >>> 24) &&& 0b1111
    if s.registers.length ≤ reg then .error s
    else .ok { s with stack := rest, registers := s.registers.set reg top,
                      log := s.log ++ ["POP"] }

/-- `beq` (phase-5 base class): relative branch on the Z flag. -/
def beq_ins (s : TCState) : TCState :=
  if s.flags.Z then
    { s with pc := (s.pc - 4) + beq_offset_int s.current_instruction,
             log := s.log ++ ["BEQ branch taken"] }
  else { s with log := s.log ++ ["BEQ no branch"] }

/-- `cmp`: update the flags from `regs[rs] - regs[rt]`. -/
def cmp_ins (s : TCState) : TCState :=
  { s with flags := cmp_flags s.registers s.flags (rs_of s.current_instruction)
                      (rt_of s.current_instruction),
           log := s.log ++ ["CMP"] }

/-- An ALU opcode handler (`add`/`sub`/.../`and_op`/`xor_op`): decode the
operand fields and run `alu_operation`; a division by zero raises before any
state is mutated. -/
def alu_ins (op : String) (s : TCState) : Except TCState TCState :=
  match alu_operation op s.registers s.flags (rd_of s.current_instruction)
      (rs_of s.current_instruction) (rt_of s.current_instruction) with
  | none => .error s
  | some (registers', flags') =>
    .ok { s with registers := registers', flags := flags', log := s.log ++ [op] }

/-- `mov`: 16-bit immediate, sign-extended by or-ing in `0xFFFF0000`. -/
def mov_ins (s : TCState) : TCState :=
  let rd := (s.current_instruction >>> 24) &&& 0b1111
  let imm := s.current_instruction &&& 0xFFFF
  let imm' := if imm &&& 0x8000 ≠ 0 then imm ||| 0xFFFF0000 else imm
  { s with registers := s.registers.set rd (imm' : Int), log := s.log ++ ["MOV"] }

/-- `load` (phase-5 base class): reads the per-thread `state.memory` dict (not
the shared controller) at `(regs[rs] + imm) & 0xFFFFFFFF`, defaulting to 0. -/
def load_ins (s : TCState) : TCState :=
  let rd := (s.current_instruction >>> 24) &&& 0b1111
  let rs := (s.current_instruction >>> 20) &&& 0b1111
  let imm := s.current_instruction &&& 0xFFFF
  let addr := (s.registers.getD rs 0 + (imm : Int)) % 2 ^ 32
  let value := dict_get s.memory addr 0
  { s with registers := s.registers.set rd value, log := s.log ++ ["LOAD"] }

/-- Dispatch over the base-class `self.opcodes` table for a 4-bit opcode.  All
sixteen 4-bit keys are present, so the `else` raise is unreachable; the table's
17th entry `0b10000 -> store` is dead, because the dispatch key is always the
4-bit masked opcode. -/
def dispatch (opcode : Nat) (s : TCState) : Except TCState TCState :=
  if opcode = 0b0000 then .ok (nop_ins s)
  else if opcode = 0b0001 then .ok (call_ins s)
  else if opcode = 0b0010 then ret_ins s
  else if opcode = 0b0011 then .ok (halt_ins s)
  else if opcode = 0b0100 then push_ins s
  else if opcode = 0b0101 then pop_ins s
  else if opcode = 0b0110 then .ok (beq_ins s)
  else if opcode = 0b0111 then .ok (cmp_ins s)
  else if opcode = 0b1000 then alu_ins "ADD" s
  else if opcode = 0b1001 then alu_ins "SUB" s
  else if opcode = 0b1010 then alu_ins "MUL" s
  else if opcode = 0b1011 then alu_ins "DIV" s
  else if opcode = 0b1100 then load_ins' s
  else if opcode = 0b1101 then .ok (mov_ins s)
  else if opcode = 0b1110 then alu_ins "XOR" s
  else if opcode = 0b1111 then alu_ins "AND" s
  else .error s
where
  load_ins' (s : TCState) : Except TCState TCState := .ok (load_ins s)

/-- `ThreadContext.execute_instruction`: an empty E slot does nothing; the
opcode is masked to 4 bits (`(E >> 28) & 0b1111`) BEFORE the comparison with
the 5-bit STORE tag `0b10000`, and the STORE branch writes `regs[rt]` to the
shared controller at address `regs[rs]`. -/
def execute_instruction (s : TCState) : Except TCState TCState :=
  match s.pipelineE with
  | none => .ok s
  | some w =>
    let opcode := (w >>> 28) &&& 0b1111
    if opcode = 0b10000 then
      let rs := (w >>> 20) &&& 0b1111
      let rt := (w >>> 16) &&& 0b1111
      let addr := s.registers.getD rs 0
      let value := s.registers.getD rt 0
      .ok { s with mem := (MemoryController.write s.mem addr value).1,
                   log := s.log ++ ["STORE"] }
    else
      dispatch opcode s

/-- `ThreadContext.fetch`: a PC at or beyond `MEMORY_SIZE` drops a bubble into
F; otherwise read the shared controller at PC and advance PC by 4. -/
def tc_fetch (s : TCState) : TCState :=
  if (MEMORY_SIZE : Int) ≤ s.pc then { s with pipelineF := none }
  else
    let r := MemoryController.read s.mem s.pc
    { s with mem := r.1, pipelineF := some r.2, pc := s.pc + 4 }

/-- `ThreadContext.has_data_hazard`: D holding ADD/SUB/MUL (rs or rt) or LOAD
(rs only) whose field matches the rd FIELD of E.  The opcode of E is computed
by the source but never consulted. -/
def tc_has_data_hazard (d e : Option Nat) : Bool :=
  match d, e with
  | some dw, some ew =>
    let d_opcode := (dw >>> 28) &&& 0b1111
    let d_rs := (dw >>> 20) &&& 0b1111
    let d_rt := (dw >>> 16) &&& 0b1111
    let e_rd := (ew >>> 24) &&& 0b1111
    if (d_opcode = 0b1000 ∨ d_opcode = 0b1001 ∨ d_opcode = 0b1010) ∧
        (d_rs = e_rd ∨ d_rt = e_rd) then true
    else if d_opcode = 0b1100 ∧ d_rs = e_rd then true
    else false
  | _, _ => false

/-- `Phase4Simulator.has_data_hazard`: same as the thread-context version but
the second test is on BEQ (`0b0110`) instead of LOAD (`0b1100`); E's opcode is
computed and likewise never consulted. -/
def p4_has_data_hazard (d e : Option Nat) : Bool :=
  match d, e with
  | some dw, some ew =>
    let d_opcode := (dw >>> 28) &&& 0b1111
    let d_rs := (dw >>> 20) &&& 0b1111
    let d_rt := (dw >>> 16) &&& 0b1111
    let e_rd := (ew >>> 24) &&& 0b1111
    if (d_opcode = 0b1000 ∨ d_opcode = 0b1001 ∨ d_opcode = 0b1010) ∧
        (d_rs = e_rd ∨ d_rt = e_rd) then true
    else if d_opcode = 0b0110 ∧ d_rs = e_rd then true
    else false
  | _, _ => false

/-- The execute phase of `pipeline_step`: if E is occupied, latch it into
`current_instruction` and execute. -/
def exec_stage (s : TCState) : Except TCState TCState :=
  match s.pipelineE with
  | none => .ok s
  | some w => execute_instruction { s with current_instruction := w }

/-- The trailing `if self.pc_changed:` block of `pipeline_step`. -/
def flush_check (s : TCState) : TCState :=
  if s.pc_changed then
    { s with pipelineF := none, pipelineD := none, flush_detected := true,
             stall_detected := false, pc_changed := false,
             log := s.log ++ ["CONTROL HAZARD: Pipeline flushed"] }
  else s

/-- `ThreadContext.pipeline_step`: bump the counter, clear the modified set;
on a data hazard bubble E and stall, otherwise advance the pipeline and fetch;
execute E; then the control-hazard check. -/
def pipeline_step (s : TCState) : Except TCState TCState :=
  let s1 := { s with step_count := s.step_count + 1, modified_registers := [] }
  let s2 :=
    if tc_has_data_hazard s1.pipelineD s1.pipelineE then
      { s1 with pipelineE := none, stall_detected := true, flush_detected := false,
                log := s1.log ++ ["DATA HAZARD: Stall inserted"] }
    else
      tc_fetch { s1 with stall_detected := false, flush_detected := false,
                         pipelineE := s1.pipelineD, pipelineD := s1.pipelineF }
  match exec_stage s2 with
  | .error e => .error e
  | .ok s3 => .ok (flush_check s3)

/-! ### C1: the 5-bit STORE tag is dead in `execute_instruction` -/

/-- A thread state whose E slot holds `make_instruction(0b10000, rd=0, rs=3,
rt=6)` with `regs[3] = 4` (a valid controller address) and `regs[6] = 42`. -/
def store_test_state : TCState :=
  { ThreadContext.init (MemoryController.init 8) with
      registers := [0, 0, 0, 4, 0, 0, 42, 0, 0, 0, 0, 0, 0, 0, 0, 0],
      pipelineE := some (make_instruction 16 0 3 6 0) }

/-- C1 (failing input): the opcode of the E slot is masked to 4 bits before the
comparison with `0b10000`, so a STORE-tagged word `make_instruction(0b10000,
rs=3, rt=6)` decodes to opcode 0 and executes as NOP: the shared memory is not
written (address `regs[3] = 4` still reads 0, not `regs[6] = 42`), refuting the
claimed STORE effect. -/
theorem store_tag_executes_as_nop :
    (execute_instruction store_test_state).toOption =
      some { store_test_state with log := store_test_state.log ++ ["NOP"] } ∧
    ((execute_instruction store_test_state).toOption.map
        (fun t => (MemoryController.read t.mem 4).2)) = some 0 ∧
    some (0 : Nat) ≠ some (42 : Nat) := by
  refine ⟨by decide, by decide, by decide⟩

/-! ### C2: nothing ever sets `pc_changed`, so the flush machinery is dead -/

/-- A thread state about to execute `CALL 0x100` (the D slot shifts into E this
cycle), with a NOP in F so that both F and D are occupied after the step. -/
def call_test_state : TCState :=
  { ThreadContext.init (MemoryController.init 8) with
      pc := 8,
      pipelineF := some (make_instruction 0 0 0 0 0),
      pipelineD := some (make_instruction 1 0 0 0 256) }

/-- C2 (failing input): executing CALL in the E slot changes PC to 0x100, but
no handler assigns `pc_changed`, so the step ends with `pc_changed = false`,
`flush_detected = false`, both F and D still occupied, and no control-hazard
log entry — refuting the claimed flush behaviour. -/
theorem call_mutates_pc_without_flush :
    ((pipeline_step call_test_state).toOption.map (fun r => r.pc)) = some 256 ∧
    ((pipeline_step call_test_state).toOption.map (fun r => r.pc_changed)) = some false ∧
    ((pipeline_step call_test_state).toOption.map (fun r => r.flush_detected)) = some false ∧
    ((pipeline_step call_test_state).toOption.map (fun r => r.pipelineD.isSome)) = some true ∧
    ((pipeline_step call_test_state).toOption.map (fun r => r.pipelineF.isSome)) = some true ∧
    ((pipeline_step call_test_state).toOption.map (fun r => r.log)) = some ["CALL"] ∧
    call_test_state.pc = 8 := by
  refine ⟨by decide, by decide, by decide, by decide, by decide, by decide, by decide⟩

/-- Every completed `pipeline_step` ends with `pc_changed = false`: the flush
block clears it and nothing in the cycle sets it. -/
theorem flush_check_pc_changed (s : TCState) : (flush_check s).pc_changed = false := by
  unfold flush_check
  split
  · rfl
  · next h => simpa using h

/-! ### C3: the hazard predicates never consult E's opcode -/

/-- The data-hazard predicate as the specification words it: a read-consumer in
D (ADD/SUB/MUL on rs and rt; BEQ or LOAD on rs only) whose checked field
matches the rd of a write-producer (ADD/SUB/MUL/MOV/LOAD/AND/XOR) held in E. -/
def spec_has_data_hazard (d e : Option Nat) : Bool :=
  match d, e with
  | some dw, some ew =>
    let d_opcode := (dw >>> 28) &&& 0b1111
    let d_rs := (dw >>> 20) &&& 0b1111
    let d_rt := (dw >>> 16) &&& 0b1111
    let e_opcode := (ew >>> 28) &&& 0b1111
    let e_rd := (ew >>> 24) &&& 0b1111
    let e_writes : Bool := decide (e_opcode = 0b1000 ∨ e_opcode = 0b1001 ∨
      e_opcode = 0b1010 ∨ e_opcode = 0b1101 ∨ e_opcode = 0b1100 ∨
      e_opcode = 0b1110 ∨ e_opcode = 0b1111)
    let d_consumes : Bool :=
      if d_opcode = 0b1000 ∨ d_opcode = 0b1001 ∨ d_opcode = 0b1010 then
        decide (d_rs = e_rd ∨ d_rt = e_rd)
      else if d_opcode = 0b0110 ∨ d_opcode = 0b1100 then decide (d_rs = e_rd)
      else false
    e_writes && d_consumes
  | _, _ => false

/-- What `ThreadContext.has_data_hazard` actually decides. -/
def amended_tc_hazard (d e : Option Nat) : Bool :=
  match d, e with
  | some dw, some ew =>
    let d_opcode := (dw >>> 28) &&& 0b1111
    let d_rs := (dw >>> 20) &&& 0b1111
    let d_rt := (dw >>> 16) &&& 0b1111
    let e_rd := (ew >>> 24) &&& 0b1111
    decide (((d_opcode = 0b1000 ∨ d_opcode = 0b1001 ∨ d_opcode = 0b1010) ∧
        (d_rs = e_rd ∨ d_rt = e_rd)) ∨ (d_opcode = 0b1100 ∧ d_rs = e_rd))
  | _, _ => false

/-- What `Phase4Simulator.has_data_hazard` actually decides. -/
def amended_p4_hazard (d e : Option Nat) : Bool :=
  match d, e with
  | some dw, some ew =>
    let d_opcode := (dw >>> 28) &&& 0b1111
    let d_rs := (dw >>> 20) &&& 0b1111
    let d_rt := (dw >>> 16) &&& 0b1111
    let e_rd := (ew >>> 24) &&& 0b1111
    decide (((d_opcode = 0b1000 ∨ d_opcode = 0b1001 ∨ d_opcode = 0b1010) ∧
        (d_rs = e_rd ∨ d_rt = e_rd)) ∨ (d_opcode = 0b0110 ∧ d_rs = e_rd))
  | _, _ => false

/-- C3 counterexample: with ADD R1,R0,R0 in D and HALT in E (which writes no
register), `ThreadContext.has_data_hazard` reports a hazard, while the claim's
predicate does not; and with BEQ (rs=0) in D and ADD R0,R1,R2 in E (a genuine
producer-consumer pair per the claim), the thread-context predicate reports
none, since it checks LOAD, not BEQ, in D. -/
theorem hazard_ignores_execute_writer :
    tc_has_data_hazard (some (make_instruction 8 1 0 0 0))
      (some (make_instruction 3 0 0 0 0)) = true ∧
    spec_has_data_hazard (some (make_instruction 8 1 0 0 0))
      (some (make_instruction 3 0 0 0 0)) = false ∧
    tc_has_data_hazard (some (make_instruction 8 1 0 0 0))
        (some (make_instruction 3 0 0 0 0)) ≠
      spec_has_data_hazard (some (make_instruction 8 1 0 0 0))
        (some (make_instruction 3 0 0 0 0)) ∧
    tc_has_data_hazard (some (make_instruction 6 0 0 0 0))
      (some (make_instruction 8 0 1 2 0)) = false ∧
    spec_has_data_hazard (some (make_instruction 6 0 0 0 0))
      (some (make_instruction 8 0 1 2 0)) = true := by
  refine ⟨by decide, by decide, by decide, by decide, by decide⟩

/-- C3 (amended): both hazard predicates fire exactly on their D-side test
against the rd FIELD of E, regardless of E's opcode: ADD/SUB/MUL in D checks
rs and rt; additionally LOAD (thread context) or BEQ (Phase4Simulator) in D
checks rs; empty slots never report a hazard. -/
theorem hazard_semantics (d e : Option Nat) :
    tc_has_data_hazard d e = amended_tc_hazard d e ∧
    p4_has_data_hazard d e = amended_p4_hazard d e := by
  cases d with
  | none => exact ⟨rfl, rfl⟩
  | some dw =>
    cases e with
    | none => exact ⟨rfl, rfl⟩
    | some ew =>
      constructor
      · show (if _ then true else if _ then true else false) = _
        split_ifs with h1 h2 <;> simp [amended_tc_hazard] <;> tauto
      · show (if _ then true else if _ then true else false) = _
        split_ifs with h1 h2 <;> simp [amended_p4_hazard] <;> tauto

/-! ### C10: what a stalled cycle changes

The claim covers both pipelined engines.  `ThreadContext` was modelled above;
here is `Phase4Simulator` (`Phase5/phase5.py`): it has no memory controller —
`fetch` reads the per-simulator `state.memory` dict — its hazard predicate is
`p4_has_data_hazard` (BEQ, not LOAD, in D), and its `execute_instruction`
tracks the destination register of every committed opcode `0b1000`-`0b1111` in
the `modified_registers` set, which `pipeline_step` clears at the top of every
cycle.  Its opcode handlers are the shared base-class code. -/

structure P4State where
  registers : List Int
  pc : Int
  stack : List Int
  flags : Flags
  memory : List (Int × Nat)
  halted : Bool
  current_instruction : Nat
  pipelineF : Option Nat
  pipelineD : Option Nat
  pipelineE : Option Nat
  stall_detected : Bool
  flush_detected : Bool
  pc_changed : Bool
  modified_registers : List Nat
  step_count : Nat
  log : List String
deriving DecidableEq

/-- Fresh `Phase4Simulator()`. -/
def Phase4Simulator.init : P4State :=
  { registers := List.replicate 16 0, pc := 0, stack := [], flags := ⟨false, false, false⟩,
    memory := [], halted := false, current_instruction := 0, pipelineF := none,
    pipelineD := none, pipelineE := none, stall_detected := false, flush_detected := false,
    pc_changed := false, modified_registers := [], step_count := 0, log := [] }

/-- Python `set.add`: insert if absent (the set is modelled as a duplicate-free
list; only emptiness and membership are ever observed). -/
def set_add (l : List Nat) (x : Nat) : List Nat :=
  if x ∈ l then l else l ++ [x]

/-- `nop` (base class), on `Phase4Simulator`. -/
def p4_nop (s : P4State) : P4State := { s with log := s.log ++ ["NOP"] }

/-- `call` (phase-5 base class): 16-bit target; `pc_changed` is not assigned. -/
def p4_call (s : P4State) : P4State :=
  let addr := s.current_instruction &&& 0xFFFF
  { s with stack := s.pc :: s.stack, pc := (addr : Int), log := s.log ++ ["CALL"] }

/-- `ret`: raises on an empty stack (after logging). -/
def p4_ret (s : P4State) : Except P4State P4State :=
  match s.stack with
  | [] => .error { s with log := s.log ++ ["RET ERROR: Stack underflow!"] }
  | return_addr :: rest =>
    .ok { s with stack := rest, pc := return_addr, log := s.log ++ ["RET"] }

/-- `halt`. -/
def p4_halt (s : P4State) : P4State :=
  { s with halted := true, log := s.log ++ ["HALT"] }

/-- `push`: the 4-bit register index never fails the range check. -/
def p4_push (s : P4State) : Except P4State P4State :=
  let reg := (s.current_instruction >>> 24) &&& 0b1111
  if s.registers.length ≤ reg then .error s
  else .ok { s with stack := s.registers.getD reg 0 :: s.stack, log := s.log ++ ["PUSH"] }

/-- `pop`. -/
def p4_pop (s : P4State) : Except P4State P4State :=
  match s.stack with
  | [] => .error { s with log := s.log ++ ["POP ERROR: Stack underflow!"] }
  | top :: rest =>
    let reg := (s.current_instruction >>> 24) &&& 0b1111
    if s.registers.length ≤ reg then .error s
    else .ok { s with stack := rest, registers := s.registers.set reg top,
                      log := s.log ++ ["POP"] }

/-- `beq` (phase-5 base class): relative branch on the Z flag. -/
def p4_beq (s : P4State) : P4State :=
  if s.flags.Z then
    { s with pc := (s.pc - 4) + beq_offset_int s.current_instruction,
             log := s.log ++ ["BEQ branch taken"] }
  else { s with log := s.log ++ ["BEQ no branch"] }

/-- `cmp`. -/
def p4_cmp (s : P4State) : P4State :=
  { s with flags := cmp_flags s.registers s.flags (rs_of s.current_instruction)
                      (rt_of s.current_instruction),
           log := s.log ++ ["CMP"] }

/-- An ALU opcode handler on `Phase4Simulator` (the shared `alu_operation`). -/
def p4_alu (op : String) (s : P4State) : Except P4State P4State :=
  match alu_operation op s.registers s.flags (rd_of s.current_instruction)
      (rs_of s.current_instruction) (rt_of s.current_instruction) with
  | none => .error s
  | some (registers', flags') =>
    .ok { s with registers := registers', flags := flags', log := s.log ++ [op] }

/-- `mov`: 16-bit immediate, sign-extended by or-ing in `0xFFFF0000`. -/
def p4_mov (s : P4State) : P4State :=
  let rd := (s.current_instruction >>> 24) &&& 0b1111
  let imm := s.current_instruction &&& 0xFFFF
  let imm' := if imm &&& 0x8000 ≠ 0 then imm ||| 0xFFFF0000 else imm
  { s with registers := s.registers.set rd (imm' : Int), log := s.log ++ ["MOV"] }

/-- `load` (base class): reads the `state.memory` dict at
`(regs[rs] + imm) & 0xFFFFFFFF`, defaulting to 0 (`dict.get`). -/
def p4_load (s : P4State) : P4State :=
  let rd := (s.current_instruction >>> 24) &&& 0b1111
  let rs := (s.current_instruction >>> 20) &&& 0b1111
  let imm := s.current_instruction &&& 0xFFFF
  let addr := (s.registers.getD rs 0 + (imm : Int)) % 2 ^ 32
  let value := (dict_lookup s.memory addr).getD 0
  { s with registers := s.registers.set rd (value : Int), log := s.log ++ ["LOAD"] }

/-- Dispatch over the base-class `self.opcodes` table for a 4-bit opcode on
`Phase4Simulator`; all sixteen keys are present, so the `else` raise is
unreachable, and the table entry `0b10000 -> store` is dead. -/
def p4_dispatch (opcode : Nat) (s : P4State) : Except P4State P4State :=
  if opcode = 0b0000 then .ok (p4_nop s)
  else if opcode = 0b0001 then .ok (p4_call s)
  else if opcode = 0b0010 then p4_ret s
  else if opcode = 0b0011 then .ok (p4_halt s)
  else if opcode = 0b0100 then p4_push s
  else if opcode = 0b0101 then p4_pop s
  else if opcode = 0b0110 then .ok (p4_beq s)
  else if opcode = 0b0111 then .ok (p4_cmp s)
  else if opcode = 0b1000 then p4_alu "ADD" s
  else if opcode = 0b1001 then p4_alu "SUB" s
  else if opcode = 0b1010 then p4_alu "MUL" s
  else if opcode = 0b1011 then p4_alu "DIV" s
  else if opcode = 0b1100 then .ok (p4_load s)
  else if opcode = 0b1101 then .ok (p4_mov s)
  else if opcode = 0b1110 then p4_alu "XOR" s
  else if opcode = 0b1111 then p4_alu "AND" s
  else .error s

/-- `Phase4Simulator.execute_instruction`: an empty E slot does nothing; a
4-bit opcode is dispatched (latching `current_instruction` first), and after a
committing handler of opcode `0b1000`-`0b1111` the destination register is
added to `modified_registers`. -/
def p4_execute_instruction (s : P4State) : Except P4State P4State :=
  match s.pipelineE with
  | none => .ok s
  | some w =>
    let opcode := (w >>> 28) &&& 0b1111
    match p4_dispatch opcode { s with current_instruction := w } with
    | .error e => .error e
    | .ok t =>
      if opcode = 0b1000 ∨ opcode = 0b1001 ∨ opcode = 0b1010 ∨ opcode = 0b1011 ∨
          opcode = 0b1100 ∨ opcode = 0b1101 ∨ opcode = 0b1110 ∨ opcode = 0b1111 then
        .ok { t with modified_registers :=
                set_add t.modified_registers ((w >>> 24) &&& 0b1111) }
      else .ok t

/-- `Phase4Simulator.fetch`: a PC outside the memory dict drops a bubble into
F without advancing; otherwise latch the word into F and advance PC by 4. -/
def p4_fetch (s : P4State) : P4State :=
  match dict_lookup s.memory s.pc with
  | none => { s with pipelineF := none }
  | some instruction => { s with pipelineF := some instruction, pc := s.pc + 4 }

/-- The execute phase of `Phase4Simulator.pipeline_step`. -/
def p4_exec_stage (s : P4State) : Except P4State P4State :=
  match s.pipelineE with
  | none => .ok s
  | some w => p4_execute_instruction { s with current_instruction := w }

/-- The trailing `if self.pc_changed:` block of `Phase4Simulator.pipeline_step`. -/
def p4_flush_check (s : P4State) : P4State :=
  if s.pc_changed then
    { s with pipelineF := none, pipelineD := none, flush_detected := true,
             stall_detected := false, pc_changed := false,
             log := s.log ++ ["CONTROL HAZARD: Pipeline flushed"] }
  else s

/-- `Phase4Simulator.pipeline_step`: bump the counter, clear the modified set;
on a data hazard bubble E and stall, otherwise advance the pipeline and fetch;
execute E; then the control-hazard check. -/
def p4_pipeline_step (s : P4State) : Except P4State P4State :=
  let s1 := { s with step_count := s.step_count + 1, modified_registers := [] }
  let s2 :=
    if p4_has_data_hazard s1.pipelineD s1.pipelineE then
      { s1 with pipelineE := none, stall_detected := true, flush_detected := false,
                log := s1.log ++ ["DATA HAZARD: Stall inserted"] }
    else
      p4_fetch { s1 with stall_detected := false, flush_detected := false,
                         pipelineE := s1.pipelineD, pipelineD := s1.pipelineF }
  match p4_exec_stage s2 with
  | .error e => .error e
  | .ok s3 => .ok (p4_flush_check s3)

/-- A reachable `Phase4Simulator` stall cycle: the previous cycle committed
`ADD R1,...`, leaving `modified_registers = {1}`; this cycle D holds a BEQ
whose rs field (0) matches the rd field of the HALT word in E, so
`p4_has_data_hazard` fires. -/
def p4_stall_state : P4State :=
  { Phase4Simulator.init with
      modified_registers := [1],
      pipelineD := some (make_instruction 6 0 0 0 0),
      pipelineE := some (make_instruction 3 0 0 0 0) }

/-- C10 counterexample: on `Phase4Simulator`, a hazard cycle entered with the
non-empty `modified_registers = {1}` (left by the previous cycle's ADD commit)
clears that set while leaving the architectural state untouched — a state
change outside the claim's exhaustive list "only the E slot, the stall/flush
indicators, the step counter, and the log change". -/
theorem p4_stall_clears_modified_registers :
    p4_has_data_hazard p4_stall_state.pipelineD p4_stall_state.pipelineE = true ∧
    p4_stall_state.modified_registers = [1] ∧
    ((p4_pipeline_step p4_stall_state).toOption.map
        (fun r => r.modified_registers)) = some [] ∧
    ([1] : List Nat) ≠ [] ∧
    ((p4_pipeline_step p4_stall_state).toOption.map (fun r => r.registers)) =
      some p4_stall_state.registers ∧
    ((p4_pipeline_step p4_stall_state).toOption.map (fun r => r.pc)) =
      some p4_stall_state.pc ∧
    ((p4_pipeline_step p4_stall_state).toOption.map (fun r => r.pipelineD)) =
      some p4_stall_state.pipelineD := by
  refine ⟨by decide, by decide, by decide, by decide, by decide, by decide, by decide⟩

/-- C10 (amended): in both pipelined engines, a `pipeline_step` cycle in which
`has_data_hazard` returns true (with the `pc_changed = false` invariant of
every reachable state) changes no architectural state — registers, flags,
stack, PC, memory, halted bit — and leaves the F and D slots unchanged; the
changes are exactly: E is bubbled, `stall_detected` set, `flush_detected`
cleared, the step counter bumped, the stall log entry appended, and the
`modified_registers` scratch set cleared (live in `Phase4Simulator`, where the
previous cycle's ALU commit can leave it non-empty; always already empty in
`ThreadContext`). -/
theorem pipeline_step_stall_frame (s : TCState) (t : P4State)
    (hhaz : tc_has_data_hazard s.pipelineD s.pipelineE = true)
    (hpc : s.pc_changed = false)
    (hhaz4 : p4_has_data_hazard t.pipelineD t.pipelineE = true)
    (hpc4 : t.pc_changed = false) :
    pipeline_step s = .ok { s with
      pipelineE := none, stall_detected := true, flush_detected := false,
      modified_registers := [], step_count := s.step_count + 1,
      log := s.log ++ ["DATA HAZARD: Stall inserted"] } ∧
    p4_pipeline_step t = .ok { t with
      pipelineE := none, stall_detected := true, flush_detected := false,
      modified_registers := [], step_count := t.step_count + 1,
      log := t.log ++ ["DATA HAZARD: Stall inserted"] } := by
  constructor
  · unfold pipeline_step exec_stage flush_check
    simp only [hhaz, if_true, hpc, if_false, Bool.false_eq_true, ite_false]
  · unfold p4_pipeline_step p4_exec_stage p4_flush_check
    simp only [hhaz4, if_true, hpc4, if_false, Bool.false_eq_true, ite_false]

/-- A concrete stalled `ThreadContext` state: ADD R1,R0,R0 in D against a word
with rd field 0 in E. -/
def stall_test_state : TCState :=
  { ThreadContext.init (MemoryController.init 8) with
      pipelineD := some (make_instruction 8 1 0 0 0),
      pipelineE := some (make_instruction 8 0 2 3 0) }

/-- Witness for C10 at `stall_test_state` (ThreadContext) and `p4_stall_state`
(Phase4Simulator, entered with a non-empty modified set). -/
theorem pipeline_step_stall_frame_witness :
    (tc_has_data_hazard stall_test_state.pipelineD stall_test_state.pipelineE = true ∧
     stall_test_state.pc_changed = false ∧
     p4_has_data_hazard p4_stall_state.pipelineD p4_stall_state.pipelineE = true ∧
     p4_stall_state.pc_changed = false) ∧
    (pipeline_step stall_test_state = .ok { stall_test_state with
      pipelineE := none, stall_detected := true, flush_detected := false,
      modified_registers := [], step_count := stall_test_state.step_count + 1,
      log := stall_test_state.log ++ ["DATA HAZARD: Stall inserted"] } ∧
    p4_pipeline_step p4_stall_state = .ok { p4_stall_state with
      pipelineE := none, stall_detected := true, flush_detected := false,
      modified_registers := [], step_count := p4_stall_state.step_count + 1,
      log := p4_stall_state.log ++ ["DATA HAZARD: Stall inserted"] }) :=
  ⟨⟨by decide, by decide, by decide, by decide⟩,
   pipeline_step_stall_frame stall_test_state p4_stall_state
     (by decide) (by decide) (by decide) (by decide)⟩

/-! ## The sequential interpreter of `phase3.py` (C9)

`phase3.py`'s `InstructionSetSimulator`: 16 registers, PC, stack, flags, a
memory dict, halt bit, `current_instruction`, log and step counter.  The
`breakpoints` list is not modelled: in a non-interactive `run` a breakpoint
only prints a message and changes no state.  Its opcode table has no NOP, no
LOAD/MOV/STORE; `0b1100/0b1101/0b1110` are AND/OR/XOR, and opcodes `0b0000` and
`0b1111` raise "Unknown opcode".  Exceptions are modelled with `Except`; `run`
catches them, appends a log entry and stops.  Note `reset()` preserves the
memory dict and does not clear `current_instruction`. -/

structure P3State where
  registers : List Int
  pc : Int
  stack : List Int
  flags : Flags
  memory : List (Int × Nat)
  halted : Bool
  current_instruction : Nat
  log : List String
  step_count : Nat
deriving DecidableEq

/-- Fresh `InstructionSetSimulator()`. -/
def P3State.init : P3State :=
  { registers := List.replicate 16 0, pc := 0, stack := [], flags := ⟨false, false, false⟩,
    memory := [], halted := false, current_instruction := 0, log := [], step_count := 0 }

/-- The write loop of `load_program`: `memory[start_addr + offset * 4] = instr`. -/
def load_words (m : List (Int × Nat)) : List Nat → Int → List (Int × Nat)
  | [], _ => m
  | w :: ws, a => load_words (dict_insert m a w) ws (a + 4)

/-- `load_program(program, start_addr)`. -/
def p3_load_program (s : P3State) (program : List Nat) (start_addr : Int) : P3State :=
  { s with memory := load_words s.memory program start_addr }

/-- `reset()`: zero the architectural state and the log/step counter but keep
the loaded memory (and, untouched, `current_instruction`). -/
def p3_reset (s : P3State) : P3State :=
  { registers := List.replicate 16 0, pc := 0, stack := [], flags := ⟨false, false, false⟩,
    memory := s.memory, halted := false, current_instruction := s.current_instruction,
    log := [], step_count := 0 }

/-- `call` (phase3: 24-bit target `instr & 0x00FFFFFF`). -/
def p3_call (s : P3State) : P3State :=
  let addr := s.current_instruction &&& 0xFFFFFF
  { s with stack := s.pc :: s.stack, pc := (addr : Int), log := s.log ++ ["CALL"] }

/-- `ret`: raises on an empty stack (after logging). -/
def p3_ret (s : P3State) : Except P3State P3State :=
  match s.stack with
  | [] => .error { s with log := s.log ++ ["RET ERROR: Stack underflow!"] }
  | return_addr :: rest =>
    .ok { s with stack := rest, pc := return_addr, log := s.log ++ ["RET"] }

/-- `halt`. -/
def p3_halt (s : P3State) : P3State :=
  { s with halted := true, log := s.log ++ ["HALT"] }

/-- `push`: the register index is 4 bits, so the range check never fires. -/
def p3_push (s : P3State) : Except P3State P3State :=
  let reg := (s.current_instruction >>> 24) &&& 0b1111
  if s.registers.length ≤ reg then .error s
  else .ok { s with stack := s.registers.getD reg 0 :: s.stack, log := s.log ++ ["PUSH"] }

/-- `pop`. -/
def p3_pop (s : P3State) : Except P3State P3State :=
  match s.stack with
  | [] => .error { s with log := s.log ++ ["POP ERROR: Stack underflow!"] }
  | top :: rest =>
    let reg := (s.current_instruction >>> 24) &&& 0b1111
    if s.registers.length ≤ reg then .error s
    else .ok { s with stack := rest, registers := s.registers.set reg top,
                      log := s.log ++ ["POP"] }

/-- `beq` (phase3: absolute 24-bit target when Z is set). -/
def p3_beq (s : P3State) : P3State :=
  let target_addr := s.current_instruction &&& 0xFFFFFF
  if s.flags.Z then
    { s with pc := (target_addr : Int), log := s.log ++ ["BEQ taken"] }
  else { s with log := s.log ++ ["BEQ not taken"] }

/-- `cmp` (identical to the phase-5 version, embedded once as `cmp_flags`). -/
def p3_cmp (s : P3State) : P3State :=
  { s with flags := cmp_flags s.registers s.flags (rs_of s.current_instruction)
                      (rt_of s.current_instruction),
           log := s.log ++ ["CMP"] }

/-- An ALU opcode handler of `phase3.py` (the shared `alu_operation`). -/
def p3_alu (op : String) (s : P3State) : Except P3State P3State :=
  match alu_operation op s.registers s.flags (rd_of s.current_instruction)
      (rs_of s.current_instruction) (rt_of s.current_instruction) with
  | none => .error s
  | some (registers', flags') =>
    .ok { s with registers := registers', flags := flags', log := s.log ++ [op] }

/-- Dispatch over `phase3.py`'s `self.opcodes`; keys `0b0000` and `0b1111` are
absent and raise "Unknown opcode". -/
def p3_dispatch (opcode : Nat) (s : P3State) : Except P3State P3State :=
  if opcode = 0b0001 then .ok (p3_call s)
  else if opcode = 0b0010 then p3_ret s
  else if opcode = 0b0011 then .ok (p3_halt s)
  else if opcode = 0b0100 then p3_push s
  else if opcode = 0b0101 then p3_pop s
  else if opcode = 0b0110 then .ok (p3_beq s)
  else if opcode = 0b0111 then .ok (p3_cmp s)
  else if opcode = 0b1000 then p3_alu "ADD" s
  else if opcode = 0b1001 then p3_alu "SUB" s
  else if opcode = 0b1010 then p3_alu "MUL" s
  else if opcode = 0b1011 then p3_alu "DIV" s
  else if opcode = 0b1100 then p3_alu "AND" s
  else if opcode = 0b1101 then p3_alu "OR" s
  else if opcode = 0b1110 then p3_alu "XOR" s
  else .error s

/-- `decode_execute`: dispatch on bits 31-28, then `step_count += 1` (reached
only when the handler did not raise). -/
def p3_decode_execute (s : P3State) : Except P3State P3State :=
  match p3_dispatch ((s.current_instruction >>> 28) &&& 0b1111) s with
  | .ok t => .ok { t with step_count := t.step_count + 1 }
  | .error t => .error t

/-- `fetch`: raises on a PC outside the memory dict, else latch the word and
advance PC by 4. -/
def p3_fetch (s : P3State) : Except P3State P3State :=
  match dict_lookup s.memory s.pc with
  | some instr => .ok { s with current_instruction := instr, pc := s.pc + 4 }
  | none => .error s

/-- One iteration body of the `run` loop: fetch then decode/execute. -/
def p3_step (s : P3State) : Except P3State P3State :=
  match p3_fetch s with
  | .error e => .error e
  | .ok s1 => p3_decode_execute s1

/-- The `while not halted and step_count < max_steps` loop; a caught exception
appends the "Execution stopped" log entry and breaks.  Each non-raising
iteration increments `step_count`, so `max_steps + 1` units of fuel are enough
for any start at `step_count = 0`. -/
def p3_run_loop (max_steps : Nat) : Nat → P3State → P3State
  | 0, s => s
  | fuel + 1, s =>
    if s.halted = true ∨ max_steps ≤ s.step_count then s
    else
      match p3_step s with
      | .error e => { e with log := e.log ++ ["Execution stopped"] }
      | .ok s' => p3_run_loop max_steps fuel s'

/-- `run(start_addr, max_steps)`, non-interactive: set PC, then loop. -/
def p3_run (s : P3State) (start_addr : Int) (max_steps : Nat) : P3State :=
  p3_run_loop max_steps (max_steps + 1) { s with pc := start_addr }

/-- States reachable through the documented interface (`load_program`, `run`,
`reset`) from a fresh interpreter; the index accumulates the loads performed,
in order. -/
inductive P3Reaches : List (List Nat × Int) → P3State → Prop where
  | init : P3Reaches [] P3State.init
  | load {L : List (List Nat × Int)} {s : P3State} (program : List Nat) (start_addr : Int) :
      P3Reaches L s →
      P3Reaches (L ++ [(program, start_addr)]) (p3_load_program s program start_addr)
  | run {L : List (List Nat × Int)} {s : P3State} (start_addr : Int) (max_steps : Nat) :
      P3Reaches L s → P3Reaches L (p3_run s start_addr max_steps)
  | reset {L : List (List Nat × Int)} {s : P3State} :
      P3Reaches L s → P3Reaches L (p3_reset s)

/-- A fresh interpreter after replaying a sequence of loads. -/
def p3_replay_loads (L : List (List Nat × Int)) : P3State :=
  L.foldl (fun s pa => p3_load_program s pa.1 pa.2) P3State.init

/-- A step result (normal or raised) whose state keeps the memory of `s`. -/
def preserves_memory (s : P3State) : Except P3State P3State → Prop
  | .ok t => t.memory = s.memory
  | .error t => t.memory = s.memory

set_option maxHeartbeats 1000000 in
theorem p3_alu_memory (op : String) (s : P3State) : preserves_memory s (p3_alu op s) := by
  unfold p3_alu
  generalize alu_operation op s.registers s.flags (rd_of s.current_instruction)
    (rs_of s.current_instruction) (rt_of s.current_instruction) = r
  rcases r with _ | ⟨r', f'⟩ <;> exact rfl

/-- A branch combinator: an `if` whose branches both keep the memory of `s`
keeps the memory of `s`. -/
theorem preserves_memory_ite {s : P3State} {c : Prop} [Decidable c]
    {x y : Except P3State P3State} (hx : preserves_memory s x)
    (hy : preserves_memory s y) : preserves_memory s (if c then x else y) := by
  by_cases h : c
  · rw [if_pos h]; exact hx
  · rw [if_neg h]; exact hy

/-- No `phase3.py` opcode handler writes the memory dict: the ISA of that file
has no STORE (and no LOAD/MOV either). -/
theorem p3_dispatch_memory (op : Nat) (s : P3State) :
    preserves_memory s (p3_dispatch op s) := by
  unfold p3_dispatch
  apply preserves_memory_ite
  · exact rfl
  apply preserves_memory_ite
  · unfold p3_ret
    cases s.stack <;> exact rfl
  apply preserves_memory_ite
  · exact rfl
  apply preserves_memory_ite
  · unfold p3_push
    apply preserves_memory_ite <;> exact rfl
  apply preserves_memory_ite
  · unfold p3_pop
    cases s.stack with
    | nil => exact rfl
    | cons top rest => apply preserves_memory_ite <;> exact rfl
  apply preserves_memory_ite
  · show (p3_beq s).memory = s.memory
    cases hz : s.flags.Z <;> simp [p3_beq, hz]
  apply preserves_memory_ite
  · exact rfl
  apply preserves_memory_ite
  · exact p3_alu_memory "ADD" s
  apply preserves_memory_ite
  · exact p3_alu_memory "SUB" s
  apply preserves_memory_ite
  · exact p3_alu_memory "MUL" s
  apply preserves_memory_ite
  · exact p3_alu_memory "DIV" s
  apply preserves_memory_ite
  · exact p3_alu_memory "AND" s
  apply preserves_memory_ite
  · exact p3_alu_memory "OR" s
  apply preserves_memory_ite
  · exact p3_alu_memory "XOR" s
  exact rfl

theorem p3_decode_execute_memory (s : P3State) :
    preserves_memory s (p3_decode_execute s) := by
  have h := p3_dispatch_memory ((s.current_instruction >>> 28) &&& 0b1111) s
  unfold p3_decode_execute
  cases hd : p3_dispatch ((s.current_instruction >>> 28) &&& 0b1111) s with
  | ok t => rw [hd] at h; exact h
  | error t => rw [hd] at h; exact h

theorem p3_step_memory (s : P3State) : preserves_memory s (p3_step s) := by
  unfold p3_step p3_fetch
  cases hm : dict_lookup s.memory s.pc with
  | none => exact rfl
  | some w =>
    show preserves_memory s (p3_decode_execute { s with current_instruction := w, pc := s.pc + 4 })
    have h := p3_decode_execute_memory { s with current_instruction := w, pc := s.pc + 4 }
    cases hd : p3_decode_execute { s with current_instruction := w, pc := s.pc + 4 } with
    | ok t => rw [hd] at h; exact h
    | error t => rw [hd] at h; exact h

theorem p3_run_loop_memory (m : Nat) (fuel : Nat) :
    ∀ s : P3State, (p3_run_loop m fuel s).memory = s.memory := by
  induction fuel with
  | zero => intro s; rfl
  | succ fuel ih =>
    intro s
    rw [p3_run_loop]
    split_ifs
    · rfl
    · have h := p3_step_memory s
      cases hstep : p3_step s with
      | error e => rw [hstep] at h; exact h
      | ok s' => rw [hstep] at h; rw [ih s']; exact h

theorem p3_run_memory (s : P3State) (start_addr : Int) (max_steps : Nat) :
    (p3_run s start_addr max_steps).memory = s.memory := by
  unfold p3_run
  rw [p3_run_loop_memory]

/-- The step function ignores the incoming `current_instruction`: a successful
step produces the identical state, and a raised step the identical state up to
`current_instruction` (a fetch failure leaves the stale latch behind). -/
theorem p3_step_ci (X : P3State) (ci : Nat) :
    (∀ t, p3_step X = .ok t → p3_step { X with current_instruction := ci } = .ok t) ∧
    (∀ t, p3_step X = .error t → ∃ ci2,
      p3_step { X with current_instruction := ci } =
        .error { t with current_instruction := ci2 }) := by
  unfold p3_step p3_fetch
  cases hm : dict_lookup X.memory X.pc with
  | none =>
    constructor
    · intro t ht
      exact Except.noConfusion ht
    · intro t ht
      cases ht
      refine ⟨ci, ?_⟩
      simp only [hm]
  | some w =>
    constructor
    · intro t ht
      simp only [hm]
      exact ht
    · intro t ht
      refine ⟨t.current_instruction, ?_⟩
      simp only [hm]
      exact ht

/-- `run` ignores the incoming `current_instruction` up to the final latch
value. -/
theorem p3_run_loop_ci (m : Nat) (fuel : Nat) :
    ∀ (X : P3State) (ci : Nat),
      ∃ ci2, p3_run_loop m fuel { X with current_instruction := ci } =
        { p3_run_loop m fuel X with current_instruction := ci2 } := by
  induction fuel with
  | zero => intro X ci; exact ⟨ci, rfl⟩
  | succ fuel ih =>
    intro X ci
    simp only [p3_run_loop]
    by_cases hc : X.halted = true ∨ m ≤ X.step_count
    · refine ⟨ci, ?_⟩
      rw [if_pos hc, if_pos hc]
    · rw [if_neg hc, if_neg hc]
      cases hstep : p3_step X with
      | error e =>
        obtain ⟨ci2, hscrub⟩ := (p3_step_ci X ci).2 e hstep
        refine ⟨ci2, ?_⟩
        rw [hscrub]
      | ok s' =>
        have hok := (p3_step_ci X ci).1 s' hstep
        refine ⟨(p3_run_loop m fuel s').current_instruction, ?_⟩
        rw [hok]

/-- Replaying loads on a fresh interpreter only populates the memory dict. -/
theorem p3_foldl_load_eq (L : List (List Nat × Int)) :
    ∀ s : P3State,
      L.foldl (fun s pa => p3_load_program s pa.1 pa.2) s =
        { s with memory := (L.foldl (fun s pa => p3_load_program s pa.1 pa.2) s).memory } := by
  induction L with
  | nil => intro s; rfl
  | cons pa rest ih =>
    intro s
    simp only [List.foldl_cons]
    rw [ih (p3_load_program s pa.1 pa.2)]
    rfl

theorem p3_replay_loads_eq (L : List (List Nat × Int)) :
    p3_replay_loads L = { P3State.init with memory := (p3_replay_loads L).memory } :=
  p3_foldl_load_eq L P3State.init

/-- A reachable state's memory is exactly the replay of its loads: no phase-3
instruction writes memory and `reset` preserves it. -/
theorem p3_reaches_memory {L : List (List Nat × Int)} {s : P3State} (h : P3Reaches L s) :
    s.memory = (p3_replay_loads L).memory := by
  induction h with
  | init => rfl
  | @load L s p a hr ih =>
    have hrepl : p3_replay_loads (L ++ [(p, a)]) = p3_load_program (p3_replay_loads L) p a := by
      unfold p3_replay_loads
      rw [List.foldl_append]
      rfl
    rw [hrepl]
    show load_words _ p a = load_words _ p a
    rw [ih]
  | run a n hr ih => rw [p3_run_memory]; exact ih
  | reset hr ih => exact ih

/-- C9: for every state reachable through the documented interface with load
history `L`, `reset()` followed by `run(start_addr, max_steps)` produces the
same final registers, PC, stack, flags, memory and halted bit as a fresh
interpreter with the same loads replayed and the same `run`. -/
theorem reset_run_eq_fresh_run (L : List (List Nat × Int)) (s : P3State)
    (start_addr : Int) (max_steps : Nat) (h : P3Reaches L s) :
    (p3_run (p3_reset s) start_addr max_steps).registers =
      (p3_run (p3_replay_loads L) start_addr max_steps).registers ∧
    (p3_run (p3_reset s) start_addr max_steps).pc =
      (p3_run (p3_replay_loads L) start_addr max_steps).pc ∧
    (p3_run (p3_reset s) start_addr max_steps).stack =
      (p3_run (p3_replay_loads L) start_addr max_steps).stack ∧
    (p3_run (p3_reset s) start_addr max_steps).flags =
      (p3_run (p3_replay_loads L) start_addr max_steps).flags ∧
    (p3_run (p3_reset s) start_addr max_steps).memory =
      (p3_run (p3_replay_loads L) start_addr max_steps).memory ∧
    (p3_run (p3_reset s) start_addr max_steps).halted =
      (p3_run (p3_replay_loads L) start_addr max_steps).halted := by
  have hmem := p3_reaches_memory h
  have hreset : p3_reset s =
      { p3_replay_loads L with current_instruction := s.current_instruction } := by
    rw [p3_replay_loads_eq L, ← hmem]
    rfl
  obtain ⟨ci2, hrw⟩ := p3_run_loop_ci max_steps (max_steps + 1)
    { p3_replay_loads L with pc := start_addr } s.current_instruction
  have hruns : p3_run (p3_reset s) start_addr max_steps =
      { p3_run (p3_replay_loads L) start_addr max_steps with current_instruction := ci2 } := by
    rw [hreset]
    exact hrw
  rw [hruns]
  exact ⟨rfl, rfl, rfl, rfl, rfl, rfl⟩

/-- A two-instruction program (ADD R1,R2,R3; HALT) for the C9 witness. -/
def c9_program : List Nat := [make_instruction 8 1 2 3 0, make_instruction 3 0 0 0 0]

/-- A reachable state: the program loaded at 0 and run to the HALT. -/
def c9_state : P3State := p3_run (p3_load_program P3State.init c9_program 0) 0 10

/-- Witness for C9: the concrete reachable state `c9_state` with load history
`[(c9_program, 0)]`. -/
theorem reset_run_eq_fresh_run_witness :
    P3Reaches ([] ++ [(c9_program, (0 : Int))]) c9_state ∧
    ((p3_run (p3_reset c9_state) 0 10).registers =
        (p3_run (p3_replay_loads ([] ++ [(c9_program, (0 : Int))])) 0 10).registers ∧
     (p3_run (p3_reset c9_state) 0 10).pc =
        (p3_run (p3_replay_loads ([] ++ [(c9_program, (0 : Int))])) 0 10).pc ∧
     (p3_run (p3_reset c9_state) 0 10).stack =
        (p3_run (p3_replay_loads ([] ++ [(c9_program, (0 : Int))])) 0 10).stack ∧
     (p3_run (p3_reset c9_state) 0 10).flags =
        (p3_run (p3_replay_loads ([] ++ [(c9_program, (0 : Int))])) 0 10).flags ∧
     (p3_run (p3_reset c9_state) 0 10).memory =
        (p3_run (p3_replay_loads ([] ++ [(c9_program, (0 : Int))])) 0 10).memory ∧
     (p3_run (p3_reset c9_state) 0 10).halted =
        (p3_run (p3_replay_loads ([] ++ [(c9_program, (0 : Int))])) 0 10).halted) :=
  ⟨P3Reaches.run 0 10 (P3Reaches.load c9_program 0 P3Reaches.init),
   reset_run_eq_fresh_run ([] ++ [(c9_program, (0 : Int))]) c9_state 0 10
     (P3Reaches.run 0 10 (P3Reaches.load c9_program 0 P3Reaches.init))⟩

end CPUSim
